import Mathlib

/-!
Verification development for the aviator-game server.

The definitions below are a shallow embedding of the server-side core:
the Prisma database service (src/unnamed/part_006), the game loop and
socket handlers (src/unnamed/part_004), the JWT auth service
(src/backend/authService.js) and the client auto-cashout effect
(src/components/BetPanel.jsx).  Monetary values and multipliers are
modelled as rationals (the source uses JS numbers / Prisma decimals),
timestamps as integer milliseconds, and JS exceptions as `Except`.
-/

namespace Aviator

/-! ### Data model (mirrors the Prisma entities used by databaseService) -/

inductive BetStatus
  | ACTIVE | CASHED_OUT | LOST | CANCELLED
deriving DecidableEq, Repr

inductive RoundStatus
  | BETTING | RUNNING | CRASHED
deriving DecidableEq, Repr

inductive TxType
  | DEPOSIT | WITHDRAWAL | BET_PLACED | BET_WON | BET_LOST | FARMING_CLAIM
deriving DecidableEq, Repr

/-- User row.  `level` is omitted: `updateUserLevel` recomputes it from
`experience` alone and it never feeds back into any balance or wager logic. -/
structure User where
  id : Nat
  balance : ℚ
  isActive : Bool := true
  totalWagered : ℚ := 0
  totalWon : ℚ := 0
  totalLost : ℚ := 0
  biggestWin : ℚ := 0
  biggestLoss : ℚ := 0
  gamesPlayed : Nat := 0
  experience : Int := 0
  lastClaimedAt : Option Int := none
deriving DecidableEq, Repr

structure Bet where
  id : Nat
  userId : Nat
  gameRoundId : Nat
  amount : ℚ
  cashoutAt : Option ℚ := none
  actualCashout : Option ℚ := none
  payout : Option ℚ := none
  status : BetStatus := .ACTIVE
deriving DecidableEq, Repr

/-- A row of the `transaction` table (the ledger).  The free-text
`description` and JSON `metadata` columns are omitted. -/
structure LedgerEntry where
  userId : Nat
  betId : Option Nat := none
  txType : TxType
  amount : ℚ
  balanceBefore : ℚ
  balanceAfter : ℚ
deriving DecidableEq, Repr

structure GameRound where
  id : Nat
  roundNumber : Nat
  serverSeed : String
  serverSeedHash : String
  clientSeed : Option String := none
  nonce : Nat := 0
  crashPoint : ℚ
  startTime : Int
  endTime : Option Int := none
  status : RoundStatus
  createdAt : Int
deriving DecidableEq, Repr

/-- The daily-limit row for the single current day (every call of the
source service keys the row by `getTodayDate()`, so one row per user
suffices for the in-day behaviour). -/
structure DailyLimit where
  userId : Nat
  maxWager : Option ℚ := none
  maxGames : Option Nat := none
  currentWager : ℚ := 0
  currentLoss : ℚ := 0
  currentGames : Nat := 0
deriving DecidableEq, Repr

structure Db where
  users : List User
  bets : List Bet
  ledger : List LedgerEntry
  rounds : List GameRound
  dailyLimits : List DailyLimit
  nextBetId : Nat := 0
deriving DecidableEq, Repr

/-- Errors thrown by the database service (`throw new Error(...)`). -/
inductive DbErr
  | userNotFound
  | insufficientBalance
  | dailyWagerLimitExceeded
  | dailyGamesLimitExceeded
  | invalidBet
deriving DecidableEq, Repr

def dbErrMessage : DbErr → String
  | .userNotFound => "User not found"
  | .insufficientBalance => "Insufficient balance"
  | .dailyWagerLimitExceeded => "Daily wager limit exceeded"
  | .dailyGamesLimitExceeded => "Daily games limit exceeded"
  | .invalidBet => "Invalid bet"

def findUser (db : Db) (userId : Nat) : Option User :=
  db.users.find? (fun u => u.id == userId)

def findBet (db : Db) (betId : Nat) : Option Bet :=
  db.bets.find? (fun b => b.id == betId)

def findDailyLimit (db : Db) (userId : Nat) : Option DailyLimit :=
  db.dailyLimits.find? (fun d => d.userId == userId)

/-- `prisma.user.update({where: {id}})`: replace the rows matching the id. -/
def setUser (users : List User) (u : User) : List User :=
  users.map (fun v => if v.id == u.id then u else v)

/-- `prisma.bet.update({where: {id}})`. -/
def setBet (bets : List Bet) (b : Bet) : List Bet :=
  bets.map (fun v => if v.id == b.id then b else v)

/-! ### databaseService operations (src/unnamed/part_006) -/

/-- `checkDailyLimits` (part_006 lines 538-559): returns the error the
source would throw, if any. -/
def checkDailyLimits (db : Db) (userId : Nat) (betAmount : ℚ) : Option DbErr :=
  match findDailyLimit db userId with
  | none => none
  | some limits =>
    if limits.maxWager.any (fun mw => decide (mw < limits.currentWager + betAmount)) then
      some .dailyWagerLimitExceeded
    else if limits.maxGames.any (fun mg => decide (mg < limits.currentGames + 1)) then
      some .dailyGamesLimitExceeded
    else none

/-- `updateDailyLimits` (part_006 lines 561-584): upsert of the per-day counters. -/
def updateDailyLimits (db : Db) (userId : Nat) (wager loss : ℚ) (games : Nat) : Db :=
  match findDailyLimit db userId with
  | some _ =>
    { db with dailyLimits := db.dailyLimits.map (fun d =>
        if d.userId == userId then
          { d with currentWager := d.currentWager + wager,
                   currentLoss := d.currentLoss + loss,
                   currentGames := d.currentGames + games }
        else d) }
  | none =>
    { db with dailyLimits := db.dailyLimits ++
        [{ userId := userId, currentWager := wager, currentLoss := loss, currentGames := games }] }

/-- `placeBet` (part_006 lines 317-384).  The whole body runs in one
`prisma.$transaction`, so on `.error` the caller keeps the unchanged `Db`.
Note: there is no check for an existing wager of the same user in the
same round. -/
def placeBet (db : Db) (userId gameRoundId : Nat) (amount : ℚ) (cashoutAt : Option ℚ) :
    Except DbErr (Db × Bet) :=
  match findUser db userId with
  | none => .error .userNotFound
  | some user =>
    if user.balance < amount then .error .insufficientBalance
    else match checkDailyLimits db userId amount with
    | some e => .error e
    | none =>
      let balanceBefore := user.balance
      let balanceAfter := balanceBefore - amount
      let user1 : User :=
        { user with balance := balanceAfter, totalWagered := user.totalWagered + amount }
      let bet : Bet :=
        { id := db.nextBetId, userId := userId, gameRoundId := gameRoundId,
          amount := amount, cashoutAt := cashoutAt, status := .ACTIVE }
      let entry : LedgerEntry :=
        { userId := userId, betId := some bet.id, txType := .BET_PLACED,
          amount := amount, balanceBefore := balanceBefore, balanceAfter := balanceAfter }
      let db1 : Db :=
        { db with users := setUser db.users user1, bets := db.bets ++ [bet],
                  ledger := db.ledger ++ [entry], nextBetId := db.nextBetId + 1 }
      .ok (updateDailyLimits db1 userId amount 0 1, bet)

/-- Experience gained on cashout (part_006 line 416):
`Math.min(50, Math.floor(10 + multiplier * 5))`. -/
def expGainedOnCashout (multiplier : ℚ) : Int :=
  min 50 (Rat.floor (10 + multiplier * 5))

/-- `cashoutBet` (part_006 lines 386-454).  Runs in one transaction; the
trailing `updateUserLevel` call only recomputes the level from experience. -/
def cashoutBet (db : Db) (betId : Nat) (multiplier : ℚ) : Except DbErr (Db × Bet) :=
  match findBet db betId with
  | none => .error .invalidBet
  | some bet =>
    if bet.status ≠ .ACTIVE then .error .invalidBet
    else match findUser db bet.userId with
    | none => .error .userNotFound
    | some user =>
      let payout := bet.amount * multiplier
      let balanceBefore := user.balance
      let balanceAfter := balanceBefore + payout
      let bet1 : Bet :=
        { bet with actualCashout := some multiplier, payout := some payout,
                   status := .CASHED_OUT }
      let user1 : User :=
        { user with balance := balanceAfter,
                    totalWon := user.totalWon + payout,
                    biggestWin := max user.biggestWin payout,
                    gamesPlayed := user.gamesPlayed + 1,
                    experience := user.experience + expGainedOnCashout multiplier }
      let entry : LedgerEntry :=
        { userId := bet.userId, betId := some bet.id, txType := .BET_WON,
          amount := payout, balanceBefore := balanceBefore, balanceAfter := balanceAfter }
      .ok ({ db with users := setUser db.users user1, bets := setBet db.bets bet1,
                     ledger := db.ledger ++ [entry] }, bet1)

/-- The updated bet row that `cashoutBet` writes (part_006 lines 404-412),
as a function of the previous row and the multiplier. -/
def cashedOutRow (bet : Bet) (m : ℚ) : Bet :=
  { bet with actualCashout := some m, payout := some (bet.amount * m), status := .CASHED_OUT }

/-- The BET_WON ledger row that `cashoutBet` inserts (part_006 lines 430-440). -/
def betWonEntry (bet : Bet) (user : User) (m : ℚ) : LedgerEntry :=
  { userId := bet.userId, betId := some bet.id, txType := .BET_WON,
    amount := bet.amount * m, balanceBefore := user.balance,
    balanceAfter := user.balance + bet.amount * m }

/-- The user-row update performed by `cashoutBet` (part_006 lines 418-427). -/
def wonUser (user : User) (bet : Bet) (m : ℚ) : User :=
  { user with balance := user.balance + bet.amount * m,
              totalWon := user.totalWon + bet.amount * m,
              biggestWin := max user.biggestWin (bet.amount * m),
              gamesPlayed := user.gamesPlayed + 1,
              experience := user.experience + expGainedOnCashout m }

/-- The database state after a successful `cashoutBet` on `bet` held by `user`. -/
def cashoutResultDb (db : Db) (bet : Bet) (user : User) (m : ℚ) : Db :=
  { db with users := setUser db.users (wonUser user bet m),
            bets := setBet db.bets (cashedOutRow bet m),
            ledger := db.ledger ++ [betWonEntry bet user m] }

/-- One iteration of the settlement loop of `crashBets`
(part_006 lines 470-518): mark the bet LOST, bump the loss statistics,
append a BET_LOST ledger row (balance before = balance after: losses do
not move the balance) and bump the daily loss counter. -/
def settleLostBet (db : Db) (crashPoint : ℚ) (bet : Bet) : Db :=
  match findUser db bet.userId with
  | none => db
  | some user =>
    let bet1 : Bet := { bet with status := .LOST, actualCashout := some crashPoint }
    let user1 : User :=
      { user with totalLost := user.totalLost + bet.amount,
                  gamesPlayed := user.gamesPlayed + 1,
                  biggestLoss := if user.biggestLoss < bet.amount then bet.amount else user.biggestLoss,
                  experience := user.experience + 5 }
    let entry : LedgerEntry :=
      { userId := bet.userId, betId := some bet.id, txType := .BET_LOST,
        amount := bet.amount, balanceBefore := user.balance, balanceAfter := user.balance }
    updateDailyLimits
      { db with users := setUser db.users user1, bets := setBet db.bets bet1,
                ledger := db.ledger ++ [entry] }
      bet.userId 0 bet.amount 0

/-- `crashBets` (part_006 lines 456-534): settle every still-ACTIVE bet of
the round as LOST. -/
def crashBets (db : Db) (gameRoundId : Nat) (crashPoint : ℚ) : Db :=
  let activeBets := db.bets.filter (fun b => b.gameRoundId == gameRoundId && b.status == .ACTIVE)
  activeBets.foldl (fun d b => settleLostBet d crashPoint b) db

/-- `updateBalance` (part_006 lines 207-253): one transaction that reads the
user, rejects a negative result, updates the balance and appends a
DEPOSIT/WITHDRAWAL ledger row. -/
def updateBalance (db : Db) (userId : Nat) (amount : ℚ) : Except DbErr Db :=
  match findUser db userId with
  | none => .error .userNotFound
  | some user =>
    let balanceBefore := user.balance
    let balanceAfter := balanceBefore + amount
    if balanceAfter < 0 then .error .insufficientBalance
    else
      let entry : LedgerEntry :=
        { userId := userId, txType := if 0 < amount then .DEPOSIT else .WITHDRAWAL,
          amount := |amount|, balanceBefore := balanceBefore, balanceAfter := balanceAfter }
      .ok { db with users := setUser db.users { user with balance := balanceAfter },
                    ledger := db.ledger ++ [entry] }

structure ClaimOutcome where
  success : Bool
  pointsClaimed : ℚ := 0
deriving DecidableEq, Repr

def farmingCooldownMs : Int := 6 * 60 * 60 * 1000

/-- `claimFarmingPoints` (part_006 lines 809-882).  Note the source runs the
`user.update` and the `transaction.create` as two separate awaited
statements, not inside a `prisma.$transaction`. -/
def claimFarmingPoints (db : Db) (userId : Nat) (now : Int) : Db × ClaimOutcome :=
  match findUser db userId with
  | none => (db, { success := false })
  | some user =>
    let canClaim := match user.lastClaimedAt with
      | none => true
      | some t => decide (farmingCooldownMs ≤ now - t)
    if !canClaim then (db, { success := false })
    else
      let pointsToAward : ℚ := 6000
      let newBalance := user.balance + pointsToAward
      let user1 : User :=
        { user with balance := newBalance, lastClaimedAt := some now,
                    experience := user.experience + 20 }
      let entry : LedgerEntry :=
        { userId := userId, txType := .FARMING_CLAIM, amount := pointsToAward,
          balanceBefore := user.balance, balanceAfter := newBalance }
      ({ db with users := setUser db.users user1, ledger := db.ledger ++ [entry] },
       { success := true, pointsClaimed := pointsToAward })

/-- `updateGameRoundStatus` (part_006 lines 280-297): `endTime` is written
only when the caller passes one. -/
def updateGameRoundStatus (db : Db) (roundId : Nat) (status : RoundStatus)
    (endTime : Option Int) : Db :=
  { db with rounds := db.rounds.map (fun r =>
      if r.id == roundId then
        { r with status := status,
                 endTime := match endTime with
                   | some e => some e
                   | none => r.endTime }
      else r) }

/-! ### Fairness audit query (part_006 lines 632-670) -/

structure FairRoundView where
  roundNumber : Nat
  serverSeed : Option String
  serverSeedHash : String
  clientSeed : Option String
  nonce : Nat
  crashPoint : ℚ
  startTime : Int
  endTime : Option Int
  createdAt : Int
deriving DecidableEq, Repr

def seedRevealGraceMs : Int := 5 * 60 * 1000

/-- The per-round projection of `getRecentRoundsForFairness`: the server
seed is revealed only when the round ended strictly more than the grace
period before `now` (`new Date(round.endTime) < fiveMinutesAgo`). -/
def fairRoundView (now : Int) (r : GameRound) : FairRoundView :=
  { roundNumber := r.roundNumber,
    serverSeed := match r.endTime with
      | some e => if e < now - seedRevealGraceMs then some r.serverSeed else none
      | none => none,
    serverSeedHash := r.serverSeedHash,
    clientSeed := r.clientSeed,
    nonce := r.nonce,
    crashPoint := r.crashPoint,
    startTime := r.startTime,
    endTime := r.endTime,
    createdAt := r.createdAt }

def insertByCreatedAtDesc (r : GameRound) : List GameRound → List GameRound
  | [] => [r]
  | x :: xs =>
    if x.createdAt ≤ r.createdAt then r :: x :: xs
    else x :: insertByCreatedAtDesc r xs

/-- `orderBy: { createdAt: 'desc' }`. -/
def sortByCreatedAtDesc : List GameRound → List GameRound
  | [] => []
  | x :: xs => insertByCreatedAtDesc x (sortByCreatedAtDesc xs)

/-- `getRecentRoundsForFairness` (part_006 lines 632-670): the most recent
CRASHED rounds with the seed hidden inside the 5-minute grace period. -/
def getRecentRoundsForFairness (db : Db) (now : Int) (lim : Nat) : List FairRoundView :=
  (((sortByCreatedAtDesc (db.rounds.filter (fun r => r.status == .CRASHED))).take lim).map
    (fairRoundView now))

/-! ### Server state and socket handlers (src/unnamed/part_004) -/

/-- The cached `player.user` object held by a session (only the fields the
handlers read). -/
structure CachedUser where
  id : Nat
  balance : ℚ
deriving DecidableEq, Repr

structure Player where
  isGuest : Bool
  user : Option CachedUser
  guestBalance : ℚ
deriving DecidableEq, Repr

/-- An entry of `gameState.activeBets`. -/
structure ActiveBet where
  amount : ℚ
  cashedOut : Bool
  cashedOutMultiplier : ℚ
  betId : Option Nat
deriving DecidableEq, Repr

inductive Phase
  | betting | running | crashed
deriving DecidableEq, Repr

/-- Frames the handlers send to the acting socket. -/
inductive Frame
  | betPlaced (amount balance : ℚ)
  | cashedOut (winnings multiplier balance : ℚ)
  | errorFrame (message : String)
deriving DecidableEq, Repr

/-- `gameState` plus the pieces of ambient server state the handlers use
(`currentGameRound` and the database). -/
structure ServerState where
  phase : Phase
  multiplier : ℚ
  crashPoint : ℚ
  startTime : Int
  players : List (Nat × Player)
  activeBets : List (Nat × ActiveBet)
  crashHistory : List ℚ
  currentRoundId : Option Nat
  db : Db
deriving DecidableEq, Repr

/-- `Map.get`. -/
def lookupEntry {α : Type} (l : List (Nat × α)) (k : Nat) : Option α :=
  (l.find? (fun p => p.1 == k)).map (fun p => p.2)

/-- `Map.set`: replace in place, or append when the key is absent. -/
def setEntry {α : Type} (l : List (Nat × α)) (k : Nat) (v : α) : List (Nat × α) :=
  if (l.find? (fun p => p.1 == k)).isSome then
    l.map (fun p => if p.1 == k then (k, v) else p)
  else l ++ [(k, v)]

/-- `handleBet` (part_004 lines 1044-1089).  There is no check against
`gameState.activeBets` or the bet table: an existing wager of the same
user in the same round does not block a further bet. -/
def handleBet (gs : ServerState) (userId : Nat) (amount : ℚ) : ServerState × List Frame :=
  match lookupEntry gs.players userId with
  | none => (gs, [])
  | some player =>
    if gs.phase ≠ .betting then (gs, [])
    else
      let currentBalance :=
        if player.isGuest then player.guestBalance
        else (player.user.map (fun u => u.balance)).getD 0
      if currentBalance < amount then (gs, [])
      else if player.isGuest then
        let player1 := { player with guestBalance := player.guestBalance - amount }
        let newBet : ActiveBet :=
          { amount := amount, cashedOut := false, cashedOutMultiplier := 0, betId := none }
        ({ gs with players := setEntry gs.players userId player1,
                   activeBets := setEntry gs.activeBets userId newBet },
         [.betPlaced amount player1.guestBalance])
      else
        match gs.currentRoundId with
        | none =>
          let newBet : ActiveBet :=
            { amount := amount, cashedOut := false, cashedOutMultiplier := 0, betId := none }
          ({ gs with activeBets := setEntry gs.activeBets userId newBet },
           [.betPlaced amount currentBalance])
        | some roundId =>
          match placeBet gs.db userId roundId amount none with
          | .error e => (gs, [.errorFrame (dbErrMessage e)])
          | .ok (db1, bet) =>
            let player1 :=
              { player with user := player.user.map (fun u => { u with balance := u.balance - amount }) }
            let newBet : ActiveBet :=
              { amount := amount, cashedOut := false, cashedOutMultiplier := 0,
                betId := some bet.id }
            ({ gs with db := db1,
                       players := setEntry gs.players userId player1,
                       activeBets := setEntry gs.activeBets userId newBet },
             [.betPlaced amount (currentBalance - amount)])

/-- The in-memory revert performed by the catch branch of `handleCashOut`
(part_004 lines 1113-1114): `bet.cashedOut = false; bet.cashedOutMultiplier = 0`. -/
def revertBet (b : ActiveBet) : ActiveBet :=
  { b with cashedOut := false, cashedOutMultiplier := 0 }

/-- `handleCashOut` (part_004 lines 1091-1133), with the awaited call
`databaseService.cashoutBet` abstracted as `persistCashout` so that a
persistence failure (the `catch` branch) can be analysed; `handleCashOut`
below instantiates it with the real `cashoutBet`. -/
def handleCashOutWith (gs : ServerState) (userId : Nat)
    (persistCashout : Db → Nat → ℚ → Except DbErr Db) : ServerState × List Frame :=
  match lookupEntry gs.players userId, lookupEntry gs.activeBets userId with
  | some player, some bet =>
    if bet.cashedOut || gs.phase ≠ .running then (gs, [])
    else
      let winnings : ℚ := (Rat.floor (bet.amount * gs.multiplier) : ℤ)
      let bet1 := { bet with cashedOut := true, cashedOutMultiplier := gs.multiplier }
      if player.isGuest then
        let player1 := { player with guestBalance := player.guestBalance + winnings }
        ({ gs with players := setEntry gs.players userId player1,
                   activeBets := setEntry gs.activeBets userId bet1 },
         [.cashedOut winnings gs.multiplier player1.guestBalance])
      else
        match bet.betId with
        | none =>
          ({ gs with activeBets := setEntry gs.activeBets userId bet1 },
           [.cashedOut winnings gs.multiplier ((player.user.map (fun u => u.balance)).getD 0)])
        | some bid =>
          match persistCashout gs.db bid gs.multiplier with
          | .error e =>
            ({ gs with activeBets := setEntry gs.activeBets userId (revertBet bet) },
             [.errorFrame (dbErrMessage e)])
          | .ok db1 =>
            let player1 :=
              { player with user := player.user.map (fun u => { u with balance := u.balance + winnings }) }
            ({ gs with db := db1,
                       players := setEntry gs.players userId player1,
                       activeBets := setEntry gs.activeBets userId bet1 },
             [.cashedOut winnings gs.multiplier
               (((player.user.map (fun u => u.balance)).getD 0) + winnings)])
  | _, _ => (gs, [])

def handleCashOut (gs : ServerState) (userId : Nat) : ServerState × List Frame :=
  handleCashOutWith gs userId (fun db bid m => (cashoutBet db bid m).map (fun p => p.1))

/-! ### Round Engine RUNNING loop (part_004 lines 743-795) -/

/-- One iteration of the 50 ms interval of `startFlying` with `crash()`
inlined.  `elapsedMs` is `Date.now() - gameState.startTime`.  The body
only recomputes the multiplier and either broadcasts or crashes; it
performs no wager mutation of its own, and `crash()` settles the
still-ACTIVE bets of the round as LOST via `crashBets`. -/
def engineTick (gs : ServerState) (elapsedMs : Int) : ServerState :=
  if gs.phase = .running then
    let m : ℚ := 1 + (elapsedMs : ℚ) / 3000
    if gs.crashPoint ≤ m then
      let db1 := match gs.currentRoundId with
        | some rid =>
          updateGameRoundStatus (crashBets gs.db rid gs.crashPoint) rid .CRASHED
            (some (gs.startTime + elapsedMs))
        | none => gs.db
      { gs with phase := .crashed, multiplier := gs.crashPoint, db := db1,
                crashHistory := (gs.crashPoint :: gs.crashHistory).take 10 }
    else { gs with multiplier := m }
  else gs

/-- The RUNNING interval run over a list of observed elapsed times; once
the state leaves `running` the interval has been cleared and further
ticks are no-ops. -/
def runEngine (gs : ServerState) (ticks : List Int) : ServerState :=
  ticks.foldl engineTick gs

/-- The client-side auto-cashout effect (src/components/BetPanel.jsx
lines 21-30): `onCashOut()` fires iff auto-cashout is enabled, the round
is running, there is a live un-cashed bet, and the broadcast multiplier
has reached the configured threshold. -/
def autoCashoutTriggered (autoCashoutEnabled : Bool) (phase : Phase)
    (activeBet : ℚ) (cashedOutMultiplier : ℚ) (multiplier threshold : ℚ) : Bool :=
  autoCashoutEnabled && phase == .running && decide (0 < activeBet) &&
    cashedOutMultiplier == 0 && decide (threshold ≤ multiplier)

/-! ### Credential service (src/backend/authService.js)

A well-signed JWT is modelled as its payload; `malformed` stands for any
string `jwt.verify` rejects.  Token expiry windows (7d/30d) are not
modelled: all claims below concern unexpired tokens. -/

structure JwtPayload where
  userId : Nat
  isRefresh : Bool
  iat : Int
deriving DecidableEq, Repr

inductive Token
  | signed (payload : JwtPayload)
  | malformed
deriving DecidableEq, Repr

structure SessionRec where
  token : Token
  lastActivity : Int
deriving DecidableEq, Repr

/-- `authService.activeSessions`: an in-process map keyed by user id. -/
structure AuthState where
  activeSessions : List (Nat × SessionRec)
deriving DecidableEq, Repr

structure AuthUser where
  id : Nat
  isActive : Bool
deriving DecidableEq, Repr

def findAuthUser (users : List AuthUser) (userId : Nat) : Option AuthUser :=
  users.find? (fun u => u.id == userId)

inductive AuthErr
  | invalidToken
  | sessionExpiredOrInvalid
  | invalidRefreshToken
  | userNotFoundOrInactive
deriving DecidableEq, Repr

/-- `generateToken` (authService.js lines 19-49): sign an access token and
store it as the user's (single) active session. -/
def generateToken (s : AuthState) (u : AuthUser) (now : Int) : AuthState × Token :=
  let token := Token.signed { userId := u.id, isRefresh := false, iat := now }
  ({ activeSessions := setEntry s.activeSessions u.id { token := token, lastActivity := now } },
   token)

/-- `generateRefreshToken` (authService.js lines 52-71): refresh tokens are
signed with `type = refresh` and are NOT recorded in `activeSessions`. -/
def generateRefreshToken (u : AuthUser) (now : Int) : Token :=
  Token.signed { userId := u.id, isRefresh := true, iat := now }

/-- `verifyToken` (authService.js lines 74-101): signature check, then the
session for the decoded user must exist and hold this very token. -/
def verifyToken (s : AuthState) (t : Token) (now : Int) :
    AuthState × Except AuthErr JwtPayload :=
  match t with
  | .malformed => (s, .error .invalidToken)
  | .signed payload =>
    match lookupEntry s.activeSessions payload.userId with
    | none => (s, .error .sessionExpiredOrInvalid)
    | some sess =>
      if sess.token ≠ t then (s, .error .sessionExpiredOrInvalid)
      else
        ({ activeSessions := setEntry s.activeSessions payload.userId
             { sess with lastActivity := now } },
         .ok payload)

/-- `refreshAccessToken` (authService.js lines 104-122): verifies the JWT
statelessly, requires `type = refresh` and an active user, then issues a
fresh access token via `generateToken`.  It never consults
`activeSessions`. -/
def refreshAccessToken (users : List AuthUser) (s : AuthState) (t : Token) (now : Int) :
    AuthState × Except AuthErr Token :=
  match t with
  | .malformed => (s, .error .invalidToken)
  | .signed payload =>
    if !payload.isRefresh then (s, .error .invalidRefreshToken)
    else match findAuthUser users payload.userId with
    | none => (s, .error .userNotFoundOrInactive)
    | some u =>
      if !u.isActive then (s, .error .userNotFoundOrInactive)
      else
        let res := generateToken s u now
        (res.1, .ok res.2)

/-- `logout` (authService.js lines 125-134): drop the user's session. -/
def logout (s : AuthState) (userId : Nat) : AuthState :=
  { activeSessions := s.activeSessions.filter (fun p => p.1 != userId) }

/-! ### Transaction grouping of the balance-mutating operations

Each database-service method is abstracted to its sequence of Prisma
statements, keeping track of which run inside a `prisma.$transaction`
block and which are bare awaited calls, and which `user.update` calls
write the `balance` column. -/

inductive PrismaOp
  | readUser
  | readBet
  | readBets
  | readDailyLimit
  | updateUser (writesBalance : Bool)
  | createBet
  | updateBet
  | createTransaction
  | upsertDailyLimit
deriving DecidableEq, Repr

inductive PrismaStmt
  | tx (ops : List PrismaOp)
  | single (op : PrismaOp)
deriving DecidableEq, Repr

/-- `updateBalance` (part_006 lines 207-253): one `$transaction`. -/
def updateBalanceScript : List PrismaStmt :=
  [.tx [.readUser, .updateUser true, .createTransaction]]

/-- `placeBet` (part_006 lines 317-384): one `$transaction`. -/
def placeBetScript : List PrismaStmt :=
  [.tx [.readUser, .readDailyLimit, .updateUser true, .createBet,
        .createTransaction, .upsertDailyLimit]]

/-- `cashoutBet` (part_006 lines 386-454): one `$transaction`, then the
bare `updateUserLevel` (a read plus a level-only update). -/
def cashoutBetScript : List PrismaStmt :=
  [.tx [.readBet, .updateBet, .updateUser true, .createTransaction],
   .single .readUser, .single (.updateUser false)]

/-- `crashBets` (part_006 lines 456-534) for a round with one lost bet:
the settlement `$transaction` (whose `user.update` writes statistics, not
the balance), then the bare `updateUserLevel`. -/
def crashBetsScript : List PrismaStmt :=
  [.tx [.readBets, .updateBet, .readUser, .updateUser false,
        .createTransaction, .upsertDailyLimit],
   .single .readUser, .single (.updateUser false)]

/-- `claimFarmingPoints` (part_006 lines 809-882): every statement is a
bare awaited Prisma call; the balance-writing `user.update` and the
ledger `transaction.create` are NOT wrapped in a `$transaction`. -/
def claimFarmingPointsScript : List PrismaStmt :=
  [.single .readUser, .single (.updateUser true), .single .createTransaction,
   .single .readUser, .single (.updateUser false)]

/-- A statement keeps balance writes and ledger rows atomic when every
balance-writing `user.update` it performs happens inside a transaction
that also inserts a ledger row. -/
def stmtBalanceLedgerAtomic : PrismaStmt → Bool
  | .tx ops => !(ops.contains (.updateUser true)) || ops.contains .createTransaction
  | .single op => op != .updateUser true

def balanceLedgerAtomic (script : List PrismaStmt) : Bool :=
  script.all stmtBalanceLedgerAtomic

/-! ### Reachability of database states through the service operations -/

def balancesNonneg (db : Db) : Prop := ∀ u ∈ db.users, 0 ≤ u.balance

def stakesNonneg (db : Db) : Prop := ∀ b ∈ db.bets, 0 ≤ b.amount

def moneyInv (db : Db) : Prop := balancesNonneg db ∧ stakesNonneg db

/-- One successful balance-touching operation of the database service, with
the preconditions its only callers establish: `handleBet` forwards only
message-validated stakes (`amount > 0`, part_004 lines 958-963) and
`handleCashOut` passes `gameState.multiplier`, which during RUNNING is
`1 + elapsed/3000 ≥ 1` (part_004 line 760). -/
inductive DbStep : Db → Db → Prop
  | place {db db' : Db} (userId roundId : Nat) (amount : ℚ) (cashoutAt : Option ℚ) (bet : Bet)
      (hpos : 0 < amount)
      (h : placeBet db userId roundId amount cashoutAt = .ok (db', bet)) : DbStep db db'
  | cashout {db db' : Db} (betId : Nat) (m : ℚ) (bet : Bet)
      (hm : 1 ≤ m)
      (h : cashoutBet db betId m = .ok (db', bet)) : DbStep db db'
  | adjust {db db' : Db} (userId : Nat) (amount : ℚ)
      (h : updateBalance db userId amount = .ok db') : DbStep db db'
  | farm {db : Db} (userId : Nat) (now : Int) :
      DbStep db (claimFarmingPoints db userId now).1
  | crash {db : Db} (roundId : Nat) (cp : ℚ) :
      DbStep db (crashBets db roundId cp)

/-- No bet row is marked CASHED_OUT. -/
def noCashedOut (db : Db) : Prop := ∀ b ∈ db.bets, b.status ≠ .CASHED_OUT

/-- The seed-reveal rule as the specification words it: the `serverSeed`
field is null if and only if the round's end time is less than the
grace period before the query time. -/
def specSeedNullIffRecent (now : Int) (v : FairRoundView) : Prop :=
  ∀ e, v.endTime = some e → (v.serverSeed = none ↔ now - e < seedRevealGraceMs)

instance {ε α : Type} [DecidableEq ε] [DecidableEq α] : DecidableEq (Except ε α) := fun a b =>
  match a, b with
  | .ok x, .ok y =>
    if h : x = y then .isTrue (by rw [h]) else .isFalse (by intro hc; cases hc; exact h rfl)
  | .error x, .error y =>
    if h : x = y then .isTrue (by rw [h]) else .isFalse (by intro hc; cases hc; exact h rfl)
  | .ok _, .error _ => .isFalse (by intro hc; cases hc)
  | .error _, .ok _ => .isFalse (by intro hc; cases hc)

/-! ### Concrete fixtures used by the closed theorems and witnesses -/

def userC1 : User := { id := 1, balance := 1000 }

def roundC1 : GameRound :=
  { id := 1, roundNumber := 1, serverSeed := "seed1", serverSeedHash := "hash1",
    crashPoint := 2, startTime := 0, status := .BETTING, createdAt := 0 }

def dbC1 : Db :=
  { users := [userC1], bets := [], ledger := [], rounds := [roundC1], dailyLimits := [] }

def gsC1 : ServerState :=
  { phase := .betting, multiplier := 1, crashPoint := 2, startTime := 0,
    players := [(1, { isGuest := false, user := some { id := 1, balance := 1000 }, guestBalance := 0 })],
    activeBets := [], crashHistory := [], currentRoundId := some 1, db := dbC1 }

def betC2 : Bet :=
  { id := 1, userId := 1, gameRoundId := 1, amount := 50, cashoutAt := some (3/2),
    status := .ACTIVE }

def roundC2 : GameRound :=
  { id := 1, roundNumber := 1, serverSeed := "seed2", serverSeedHash := "hash2",
    crashPoint := 2, startTime := 0, status := .RUNNING, createdAt := 0 }

def dbC2 : Db :=
  { users := [{ id := 1, balance := 950 }], bets := [betC2], ledger := [],
    rounds := [roundC2], dailyLimits := [], nextBetId := 2 }

def gsC2 : ServerState :=
  { phase := .running, multiplier := 1, crashPoint := 2, startTime := 0,
    players := [(1, { isGuest := false, user := some { id := 1, balance := 950 }, guestBalance := 0 })],
    activeBets := [(1, { amount := 50, cashedOut := false, cashedOutMultiplier := 0, betId := some 1 })],
    crashHistory := [], currentRoundId := some 1, db := dbC2 }

/-- Observed elapsed times (ms) of the RUNNING interval in the C2 scenario:
the multiplier passes the 1.5 auto-cashout threshold at 1550 ms and
reaches the crash point 2 at 3000 ms. -/
def ticksC2 : List Int := [50, 1550, 3000]

def userC3 : User := { id := 1, balance := 900 }

def betC3 : Bet :=
  { id := 1, userId := 1, gameRoundId := 1, amount := 100, status := .ACTIVE }

def dbC3 : Db :=
  { users := [userC3], bets := [betC3], ledger := [], rounds := [], dailyLimits := [],
    nextBetId := 2 }

/-- The C3 scenario as the claim literally words it: the user balance is
950 when the 100 bet is cashed out. -/
def dbC3x : Db :=
  { users := [{ id := 1, balance := 950 }], bets := [betC3], ledger := [], rounds := [],
    dailyLimits := [], nextBetId := 2 }

def userC5 : User := { id := 1, balance := 50 }

def dbC5 : Db :=
  { users := [userC5], bets := [], ledger := [], rounds := [], dailyLimits := [] }

def playerC5 : Player :=
  { isGuest := false, user := some { id := 1, balance := 50 }, guestBalance := 0 }

def gsC5 : ServerState :=
  { phase := .betting, multiplier := 1, crashPoint := 2, startTime := 0,
    players := [(1, playerC5)], activeBets := [], crashHistory := [],
    currentRoundId := some 1, db := dbC5 }

def authUserC6 : AuthUser := { id := 1, isActive := true }

def authUsersC6 : List AuthUser := [authUserC6]

/-- A refresh token issued to user 1 (`generateRefreshToken` at `iat = 0`). -/
def refreshTokenC6 : Token := Token.signed { userId := 1, isRefresh := true, iat := 0 }

/-- Auth state in which user 1 holds an active session for the access token
issued at `iat = 0`. -/
def authStateC6 : AuthState :=
  { activeSessions := [(1, { token := Token.signed { userId := 1, isRefresh := false, iat := 0 },
                             lastActivity := 0 })] }

def playerC7 : Player :=
  { isGuest := false, user := some { id := 1, balance := 1100 }, guestBalance := 0 }

def abetC7 : ActiveBet :=
  { amount := 100, cashedOut := true, cashedOutMultiplier := 3/2, betId := some 1 }

def gsC7 : ServerState :=
  { phase := .running, multiplier := 8/5, crashPoint := 2, startTime := 0,
    players := [(1, playerC7)], activeBets := [(1, abetC7)],
    crashHistory := [], currentRoundId := some 1,
    db := { users := [{ id := 1, balance := 1100 }],
            bets := [{ id := 1, userId := 1, gameRoundId := 1, amount := 100,
                       actualCashout := some (3/2), payout := some 150, status := .CASHED_OUT }],
            ledger := [], rounds := [], dailyLimits := [], nextBetId := 2 } }

def gsC8 : ServerState :=
  { phase := .running, multiplier := 1, crashPoint := 49/20, startTime := 0,
    players := [], activeBets := [], crashHistory := [], currentRoundId := none,
    db := { users := [], bets := [], ledger := [], rounds := [], dailyLimits := [] } }

def roundC9 : GameRound :=
  { id := 1, roundNumber := 7, serverSeed := "seed9", serverSeedHash := "hash9",
    crashPoint := 49/20, startTime := 600000, endTime := some 700000,
    status := .CRASHED, createdAt := 600000 }

def dbC9 : Db :=
  { users := [], bets := [], ledger := [], rounds := [roundC9], dailyLimits := [] }

/-- Query time exactly `seedRevealGraceMs` after `roundC9` ended. -/
def nowC9 : Int := 1000000

def playerC10 : Player :=
  { isGuest := false, user := some { id := 1, balance := 900 }, guestBalance := 0 }

def abetC10 : ActiveBet :=
  { amount := 100, cashedOut := false, cashedOutMultiplier := 0, betId := some 1 }

def gsC10 : ServerState :=
  { phase := .running, multiplier := 3/2, crashPoint := 2, startTime := 0,
    players := [(1, playerC10)], activeBets := [(1, abetC10)],
    crashHistory := [], currentRoundId := some 1,
    db := { users := [{ id := 1, balance := 900 }],
            bets := [{ id := 1, userId := 1, gameRoundId := 1, amount := 100, status := .ACTIVE }],
            ledger := [], rounds := [], dailyLimits := [], nextBetId := 2 } }

/-- A persistence call that fails (models `cashoutBet` throwing, e.g. a
connection loss). -/
def failingPersist : Db → Nat → ℚ → Except DbErr Db := fun _ _ _ => .error .invalidBet

/-! ### Helper lemmas -/

theorem updateDailyLimits_users (db : Db) (uid : Nat) (w l : ℚ) (g : Nat) :
    (updateDailyLimits db uid w l g).users = db.users := by
  unfold updateDailyLimits
  rcases findDailyLimit db uid <;> rfl

theorem updateDailyLimits_bets (db : Db) (uid : Nat) (w l : ℚ) (g : Nat) :
    (updateDailyLimits db uid w l g).bets = db.bets := by
  unfold updateDailyLimits
  rcases findDailyLimit db uid <;> rfl

theorem updateDailyLimits_ledger (db : Db) (uid : Nat) (w l : ℚ) (g : Nat) :
    (updateDailyLimits db uid w l g).ledger = db.ledger := by
  unfold updateDailyLimits
  rcases findDailyLimit db uid <;> rfl

theorem updateGameRoundStatus_bets (db : Db) (rid : Nat) (st : RoundStatus) (et : Option Int) :
    (updateGameRoundStatus db rid st et).bets = db.bets := rfl

theorem mem_setUser {users : List User} {u v : User} (h : v ∈ setUser users u) :
    v = u ∨ v ∈ users := by
  simp only [setUser, List.mem_map] at h
  obtain ⟨w, hw, hv⟩ := h
  by_cases hid : w.id = u.id
  · left; simp [hid] at hv; exact hv.symm
  · right; simp [hid] at hv; exact hv ▸ hw

theorem mem_setBet {bets : List Bet} {b v : Bet} (h : v ∈ setBet bets b) :
    v = b ∨ v ∈ bets := by
  simp only [setBet, List.mem_map] at h
  obtain ⟨w, hw, hv⟩ := h
  by_cases hid : w.id = b.id
  · left; simp [hid] at hv; exact hv.symm
  · right; simp [hid] at hv; exact hv ▸ hw

theorem findUser_setUser : ∀ (users : List User) (uid : Nat) (u u1 : User),
    users.find? (fun v => v.id == uid) = some u → u1.id = u.id →
    (setUser users u1).find? (fun v => v.id == uid) = some u1 := by
  intro users
  induction users with
  | nil => intro uid u u1 h _; simp at h
  | cons x xs ih =>
    intro uid u u1 h hid
    by_cases hx : x.id = uid
    · rw [List.find?_cons_of_pos _ (by simp [hx])] at h
      have hxu : x = u := by injection h
      have h1 : u1.id = x.id := by rw [hid, hxu]
      have hhead : (if x.id == u1.id then u1 else x) = u1 := by simp [h1]
      show List.find? _ (List.map _ (x :: xs)) = _
      rw [List.map_cons, hhead, List.find?_cons_of_pos _ (by simp [h1, hx])]
    · rw [List.find?_cons_of_neg _ (by simp [hx])] at h
      have hu := List.find?_some h
      have huid : u.id = uid := by simpa using hu
      have hne : ¬(x.id = u1.id) := by rw [hid, huid]; exact hx
      have hhead : (if x.id == u1.id then u1 else x) = x := by simp [hne]
      show List.find? _ (List.map _ (x :: xs)) = _
      rw [List.map_cons, hhead, List.find?_cons_of_neg _ (by simp [hx])]
      exact ih uid u u1 h hid

theorem lookup_logout (s : AuthState) (uid : Nat) :
    lookupEntry (logout s uid).activeSessions uid = none := by
  unfold logout lookupEntry
  have : List.find? (fun p => p.1 == uid) (s.activeSessions.filter (fun p => p.1 != uid)) = none := by
    rw [List.find?_eq_none]
    intro p hp
    have := (List.mem_filter.mp hp).2
    simpa using this
  rw [this]
  rfl

/-! ### Preservation of the money invariant -/


theorem placeBet_preserves {db db' : Db} {uid rid : Nat} {amount : ℚ} {c : Option ℚ} {bet : Bet}
    (hpos : 0 < amount) (h : placeBet db uid rid amount c = .ok (db', bet))
    (hinv : moneyInv db) : moneyInv db' := by
  unfold placeBet at h
  cases hu : findUser db uid with
  | none => rw [hu] at h; cases h
  | some u =>
    rw [hu] at h
    dsimp only at h
    split_ifs at h with hb
    cases hc : checkDailyLimits db uid amount with
    | some e => rw [hc] at h; cases h
    | none =>
      rw [hc] at h
      dsimp only at h
      injection h with h1
      have hdb := congrArg Prod.fst h1
      dsimp only at hdb
      subst hdb
      constructor
      · intro v hv
        rw [updateDailyLimits_users] at hv
        rcases mem_setUser hv with rfl | hv2
        · simpa using sub_nonneg.mpr (not_lt.mp hb)
        · exact hinv.1 v hv2
      · intro b2 hb2
        rw [updateDailyLimits_bets] at hb2
        rcases List.mem_append.mp hb2 with h2 | h2
        · exact hinv.2 b2 h2
        · simp at h2
          subst h2
          simpa using hpos.le

theorem cashoutBet_preserves {db db' : Db} {betId : Nat} {m : ℚ} {bet : Bet}
    (hm : 1 ≤ m) (h : cashoutBet db betId m = .ok (db', bet))
    (hinv : moneyInv db) : moneyInv db' := by
  unfold cashoutBet at h
  cases hb : findBet db betId with
  | none => rw [hb] at h; cases h
  | some bet0 =>
    rw [hb] at h
    dsimp only at h
    split_ifs at h with hst
    cases hu : findUser db bet0.userId with
    | none => rw [hu] at h; cases h
    | some user =>
      rw [hu] at h
      dsimp only at h
      injection h with h1
      have hdb := congrArg Prod.fst h1
      dsimp only at hdb
      subst hdb
      have hamt : 0 ≤ bet0.amount := by
        have hmem : bet0 ∈ db.bets := by
          unfold findBet at hb
          exact List.mem_of_find?_eq_some hb
        exact hinv.2 bet0 hmem
      have hpay : 0 ≤ bet0.amount * m := mul_nonneg hamt (le_trans zero_le_one hm)
      constructor
      · intro v hv
        rcases mem_setUser hv with rfl | hv2
        · have hub : 0 ≤ user.balance := by
            have hmem : user ∈ db.users := by
              unfold findUser at hu
              exact List.mem_of_find?_eq_some hu
            exact hinv.1 user hmem
          simpa using add_nonneg hub hpay
        · exact hinv.1 v hv2
      · intro b2 hb2
        rcases mem_setBet hb2 with rfl | h2
        · simpa using hamt
        · exact hinv.2 b2 h2

theorem updateBalance_preserves {db db' : Db} {uid : Nat} {amount : ℚ}
    (h : updateBalance db uid amount = .ok db') (hinv : moneyInv db) : moneyInv db' := by
  unfold updateBalance at h
  cases hu : findUser db uid with
  | none => rw [hu] at h; cases h
  | some user =>
    rw [hu] at h
    dsimp only at h
    split_ifs at h with hneg hsign
    all_goals
      injection h with h1
      subst h1
      refine ⟨fun v hv => ?_, hinv.2⟩
      rcases mem_setUser hv with rfl | hv2
      · simpa using not_lt.mp hneg
      · exact hinv.1 v hv2

theorem claimFarming_preserves {db : Db} (uid : Nat) (now : Int) (hinv : moneyInv db) :
    moneyInv (claimFarmingPoints db uid now).1 := by
  unfold claimFarmingPoints
  cases hu : findUser db uid with
  | none => exact hinv
  | some user =>
    dsimp only
    split_ifs with hcc
    · exact hinv
    · have hub : 0 ≤ user.balance := by
        have hmem : user ∈ db.users := by
          unfold findUser at hu
          exact List.mem_of_find?_eq_some hu
        exact hinv.1 user hmem
      constructor
      · intro v hv
        dsimp only at hv
        rcases mem_setUser hv with rfl | hv2
        · simpa using add_nonneg hub (by norm_num)
        · exact hinv.1 v hv2
      · exact hinv.2


/-! ### Settlement and engine lemmas -/


theorem settleLostBet_preserves {db : Db} {cp : ℚ} {b : Bet} (hb : 0 ≤ b.amount)
    (hinv : moneyInv db) : moneyInv (settleLostBet db cp b) := by
  unfold settleLostBet
  cases hu : findUser db b.userId with
  | none => exact hinv
  | some user =>
    dsimp only
    constructor
    · intro v hv
      rw [updateDailyLimits_users] at hv
      dsimp only at hv
      rcases mem_setUser hv with rfl | hv2
      · have hmem : user ∈ db.users := by
          unfold findUser at hu
          exact List.mem_of_find?_eq_some hu
        simpa using hinv.1 user hmem
      · exact hinv.1 v hv2
    · intro b2 hb2
      rw [updateDailyLimits_bets] at hb2
      dsimp only at hb2
      rcases mem_setBet hb2 with rfl | h2
      · simpa using hb
      · exact hinv.2 b2 h2

theorem foldl_settle_preserves (cp : ℚ) :
    ∀ (l : List Bet) (d : Db), (∀ b ∈ l, 0 ≤ b.amount) → moneyInv d →
      moneyInv (l.foldl (fun d b => settleLostBet d cp b) d) := by
  intro l
  induction l with
  | nil => intro d _ hd; simpa using hd
  | cons b bs ih =>
    intro d hl hd
    rw [List.foldl_cons]
    exact ih _ (fun x hx => hl x (List.mem_cons_of_mem _ hx))
      (settleLostBet_preserves (hl b (List.mem_cons_self _ _)) hd)

theorem crashBets_preserves {db : Db} (rid : Nat) (cp : ℚ) (hinv : moneyInv db) :
    moneyInv (crashBets db rid cp) := by
  unfold crashBets
  exact foldl_settle_preserves cp _ db
    (fun b hb => hinv.2 b (List.mem_filter.mp hb).1) hinv

theorem settleLostBet_noCashedOut {db : Db} {cp : ℚ} {b : Bet} (h : noCashedOut db) :
    noCashedOut (settleLostBet db cp b) := by
  unfold settleLostBet
  cases hu : findUser db b.userId with
  | none => exact h
  | some user =>
    dsimp only
    intro b2 hb2
    rw [updateDailyLimits_bets] at hb2
    dsimp only at hb2
    rcases mem_setBet hb2 with rfl | h2
    · simp
    · exact h b2 h2

theorem foldl_settle_noCashedOut (cp : ℚ) :
    ∀ (l : List Bet) (d : Db), noCashedOut d →
      noCashedOut (l.foldl (fun d b => settleLostBet d cp b) d) := by
  intro l
  induction l with
  | nil => intro d hd; simpa using hd
  | cons b bs ih =>
    intro d hd
    rw [List.foldl_cons]
    exact ih _ (settleLostBet_noCashedOut hd)

theorem crashBets_noCashedOut {db : Db} (rid : Nat) (cp : ℚ) (h : noCashedOut db) :
    noCashedOut (crashBets db rid cp) := by
  unfold crashBets
  exact foldl_settle_noCashedOut cp _ db h

theorem engineTick_db_cases (gs : ServerState) (t : Int) :
    (engineTick gs t).db = gs.db ∨
    ∃ rid, gs.currentRoundId = some rid ∧
      (engineTick gs t).db
        = updateGameRoundStatus (crashBets gs.db rid gs.crashPoint) rid .CRASHED
            (some (gs.startTime + t)) := by
  simp only [engineTick]
  by_cases hrun : gs.phase = .running
  · rw [if_pos hrun]
    by_cases hcrash : gs.crashPoint ≤ 1 + (t : ℚ) / 3000
    · rw [if_pos hcrash]
      cases hrid : gs.currentRoundId with
      | none => left; simp [hrid]
      | some rid => right; exact ⟨rid, rfl, by simp [hrid]⟩
    · rw [if_neg hcrash]; left; rfl
  · rw [if_neg hrun]; left; rfl

theorem engineTick_noCashedOut {gs : ServerState} {t : Int} (h : noCashedOut gs.db) :
    noCashedOut (engineTick gs t).db := by
  rcases engineTick_db_cases gs t with heq | ⟨rid, _, heq⟩
  · rw [heq]; exact h
  · rw [heq]
    intro b2 hb2
    rw [updateGameRoundStatus_bets] at hb2
    exact crashBets_noCashedOut rid gs.crashPoint h b2 hb2

theorem runEngine_noCashedOut : ∀ (ticks : List Int) (gs : ServerState),
    noCashedOut gs.db → noCashedOut (runEngine gs ticks).db := by
  intro ticks
  induction ticks with
  | nil => intro gs h; simpa [runEngine] using h
  | cons t ts ih =>
    intro gs h
    rw [runEngine, List.foldl_cons]
    exact ih (engineTick gs t) (engineTick_noCashedOut h)

theorem engineTick_below (gs : ServerState) (t : Int) (hrun : gs.phase = .running)
    (hlt : (1 : ℚ) + (t : ℚ) / 3000 < gs.crashPoint) :
    engineTick gs t = { gs with multiplier := 1 + (t : ℚ) / 3000 } := by
  simp only [engineTick]
  rw [if_pos hrun, if_neg (not_le.mpr hlt)]

theorem runEngine_running_of_below : ∀ (ticks : List Int) (gs : ServerState),
    gs.phase = .running →
    (∀ t ∈ ticks, (1 : ℚ) + (t : ℚ) / 3000 < gs.crashPoint) →
    (runEngine gs ticks).phase = .running := by
  intro ticks
  induction ticks with
  | nil => intro gs h _; simpa [runEngine] using h
  | cons t ts ih =>
    intro gs hrun hall
    have ht := hall t (List.mem_cons_self _ _)
    rw [runEngine, List.foldl_cons, engineTick_below gs t hrun ht]
    exact ih _ hrun (fun x hx => hall x (List.mem_cons_of_mem _ hx))


/-! ### Claim theorems -/


/-- Claim C3 (amended): a successful cashout of an ACTIVE wager with
stake `s` at multiplier `m` marks the wager CASHED_OUT with
`actualCashout = m` and `payout = s * m`, credits the user's balance by
exactly `s * m`, and appends a BET_WON ledger row whose balance-before
and balance-after bracket that credit; in particular a 100 bet cashed out
at m = 1.50 yields payout 150 and balance 1050 from 900. -/
theorem cashoutBet_spec (db : Db) (betId : Nat) (m : ℚ) (bet : Bet) (user : User)
    (hb : findBet db betId = some bet) (hs : bet.status = .ACTIVE)
    (hu : findUser db bet.userId = some user) :
    ∃ db1, cashoutBet db betId m = Except.ok (db1, cashedOutRow bet m)
      ∧ (findUser db1 bet.userId).map User.balance = some (user.balance + bet.amount * m)
      ∧ db1.ledger = db.ledger ++ [betWonEntry bet user m] := by
  refine ⟨cashoutResultDb db bet user m, ?_, ?_, ?_⟩
  · unfold cashoutBet
    rw [hb]
    dsimp only
    rw [if_neg (by simp [hs]), hu]
    rfl
  · unfold cashoutResultDb findUser
    dsimp only
    unfold findUser at hu
    rw [findUser_setUser db.users bet.userId user (wonUser user bet m) hu rfl]
    rfl
  · rfl

/-- Claim C5 (amended): a bet exceeding the user's balance is rejected with
no state change — the socket handler drops it silently when the cached
balance is below the amount, and the persistence transaction fails with
the insufficient-balance error when reached, creating no wager row and no
ledger row; and every balance-changing database operation preserves
non-negative balances. -/
theorem insufficient_funds_and_nonneg :
    (∀ (gs : ServerState) (uid : Nat) (amount : ℚ) (player : Player),
        lookupEntry gs.players uid = some player →
        (if player.isGuest then player.guestBalance
         else ((player.user.map (fun u => u.balance)).getD 0)) < amount →
        handleBet gs uid amount = (gs, []))
    ∧ (∀ (db : Db) (uid rid : Nat) (amount : ℚ) (c : Option ℚ) (u : User),
        findUser db uid = some u → u.balance < amount →
        placeBet db uid rid amount c = Except.error DbErr.insufficientBalance)
    ∧ (∀ db db' : Db, moneyInv db → DbStep db db' → moneyInv db') := by
  refine ⟨?_, ?_, ?_⟩
  · intro gs uid amount player hp hlt
    unfold handleBet
    rw [hp]
    dsimp only
    by_cases hph : gs.phase = .betting
    · rw [if_neg (not_not_intro hph), if_pos hlt]
    · rw [if_pos hph]
  · intro db uid rid amount c u hu hlt
    unfold placeBet
    rw [hu]
    dsimp only
    rw [if_pos hlt]
  · intro db db' hinv hstep
    cases hstep with
    | place uid rid amount c bet hpos h => exact placeBet_preserves hpos h hinv
    | cashout betId m bet hm h => exact cashoutBet_preserves hm h hinv
    | adjust uid amount h => exact updateBalance_preserves h hinv
    | farm uid now => exact claimFarming_preserves uid now hinv
    | crash rid cp => exact crashBets_preserves rid cp hinv

/-- Claim C7 (amended): a CashOut request for a wager that is already
cashed out is silently ignored — the handler returns without sending any
frame (no AlreadyExists error), leaving the user's balance, the wager
state and the whole server state unchanged. -/
theorem duplicate_cashout_silently_ignored (gs : ServerState) (uid : Nat)
    (player : Player) (bet : ActiveBet) (pc : Db → Nat → ℚ → Except DbErr Db)
    (hp : lookupEntry gs.players uid = some player)
    (hb : lookupEntry gs.activeBets uid = some bet)
    (hco : bet.cashedOut = true) :
    handleCashOutWith gs uid pc = (gs, []) := by
  unfold handleCashOutWith
  rw [hp, hb]
  dsimp only
  rw [if_pos (by simp [hco])]

/-- Claim C10: when the persistence cashout call fails for an
authenticated user's live wager during RUNNING, the handler reverts the
in-memory wager to `cashedOut = false, cashedOutMultiplier = 0`, leaves
the cached balance, the players map and the database unchanged, and sends
an error frame instead of a cashedOut frame, so the wager remains live. -/
theorem cashout_persist_failure_reverts (gs : ServerState) (uid bid : Nat)
    (player : Player) (bet : ActiveBet) (e : DbErr)
    (pc : Db → Nat → ℚ → Except DbErr Db)
    (hp : lookupEntry gs.players uid = some player)
    (hb : lookupEntry gs.activeBets uid = some bet)
    (hco : bet.cashedOut = false) (hrun : gs.phase = .running)
    (hg : player.isGuest = false) (hbid : bet.betId = some bid)
    (hfail : pc gs.db bid gs.multiplier = .error e) :
    handleCashOutWith gs uid pc
      = ({ gs with activeBets := setEntry gs.activeBets uid (revertBet bet) },
         [Frame.errorFrame (dbErrMessage e)]) := by
  unfold handleCashOutWith
  rw [hp, hb]
  dsimp only
  rw [if_neg (by simp [hco, hrun]), if_neg (by simp [hg]), hbid]
  dsimp only
  rw [hfail]

/-- Claim C2 (amended): the Round Engine does not check autoCashout
thresholds — no run of the RUNNING loop ever marks a wager CASHED_OUT
(ticks only recompute the multiplier, and crash settlement marks
still-ACTIVE wagers LOST), so a live wager whose threshold is below the
crash point settles LOST unless a cashOut request arrives; the threshold
comparison is performed client-side, which triggers a cashOut exactly
when the round is running, the bet is live and un-cashed, and the
broadcast multiplier has reached the threshold. -/
theorem engine_has_no_auto_cashout :
    (∀ (gs : ServerState) (ticks : List Int), noCashedOut gs.db →
        noCashedOut (runEngine gs ticks).db)
    ∧ (∀ (en : Bool) (ab com m θ : ℚ),
        autoCashoutTriggered en .running ab com m θ = true ↔
          (en = true ∧ 0 < ab ∧ com = 0 ∧ θ ≤ m)) := by
  constructor
  · intro gs ticks h
    exact runEngine_noCashedOut ticks gs h
  · intro en ab com m θ
    simp [autoCashoutTriggered, and_assoc]

/-- Claim C8: during RUNNING the multiplier computed and broadcast at a
tick with elapsed time `e` milliseconds equals `1 + e/3000` (that is,
`m(t) = 1 + t/3` for `t` in seconds); at the first tick where the
multiplier reaches the crash point the round transitions to CRASHED with
the final multiplier pinned exactly to `crashPoint`, and while every tick
stays below the crash point the round remains RUNNING. -/
theorem running_tick_multiplier_spec (gs : ServerState) (e : Int) (ticks : List Int)
    (hrun : gs.phase = .running) :
    ((1 : ℚ) + (e : ℚ) / 3000 < gs.crashPoint →
        engineTick gs e = { gs with multiplier := 1 + (e : ℚ) / 3000 })
    ∧ (gs.crashPoint ≤ 1 + (e : ℚ) / 3000 →
        (engineTick gs e).phase = .crashed ∧ (engineTick gs e).multiplier = gs.crashPoint)
    ∧ ((∀ t ∈ ticks, (1 : ℚ) + (t : ℚ) / 3000 < gs.crashPoint) →
        (runEngine gs ticks).phase = .running) := by
  refine ⟨fun hlt => engineTick_below gs e hrun hlt, fun hge => ?_,
    fun hall => runEngine_running_of_below ticks gs hrun hall⟩
  simp only [engineTick]
  rw [if_pos hrun, if_pos hge]
  exact ⟨rfl, rfl⟩

/-- Claim C6 (amended): Refresh on a valid refresh token of an existing
active user yields a new access token for that same user, whether or not
a session exists — in particular also after Logout, because refresh
tokens are verified statelessly; Logout does remove the session, so a
previously issued access token is rejected by `verifyToken`. -/
theorem refresh_stateless_logout (users : List AuthUser) (s : AuthState) (u : AuthUser)
    (iat now now2 : Int) (uid2 : Nat)
    (hu : findAuthUser users u.id = some u) (hactive : u.isActive = true) :
    ((refreshAccessToken users s (generateRefreshToken u iat) now).2
        = Except.ok (Token.signed { userId := u.id, isRefresh := false, iat := now }))
    ∧ ((refreshAccessToken users (logout s u.id) (generateRefreshToken u iat) now).2
        = Except.ok (Token.signed { userId := u.id, isRefresh := false, iat := now }))
    ∧ ((verifyToken (logout s uid2)
          (Token.signed { userId := uid2, isRefresh := false, iat := now2 }) now).2
        = Except.error AuthErr.sessionExpiredOrInvalid) := by
  refine ⟨?_, ?_, ?_⟩
  · simp [refreshAccessToken, generateRefreshToken, hu, hactive, generateToken]
  · simp [refreshAccessToken, generateRefreshToken, hu, hactive, generateToken]
  · simp [verifyToken, lookup_logout]

theorem mem_insertByCreatedAtDesc {x r : GameRound} : ∀ {l : List GameRound},
    x ∈ insertByCreatedAtDesc r l ↔ x = r ∨ x ∈ l := by
  intro l
  induction l with
  | nil => simp [insertByCreatedAtDesc]
  | cons a as ih =>
    unfold insertByCreatedAtDesc
    split_ifs with hle
    · simp [List.mem_cons]
    · simp only [List.mem_cons, ih]
      tauto

theorem mem_sortByCreatedAtDesc {x : GameRound} : ∀ {l : List GameRound},
    x ∈ sortByCreatedAtDesc l ↔ x ∈ l := by
  intro l
  induction l with
  | nil => simp [sortByCreatedAtDesc]
  | cons a as ih =>
    unfold sortByCreatedAtDesc
    rw [mem_insertByCreatedAtDesc]
    simp [ih]

/-- Claim C9 (amended): the fairness audit query returns only CRASHED
rounds, and a returned round's serverSeed is revealed exactly when the
round has an end time strictly earlier than `now` minus the 5-minute
grace period; equivalently the seed is null iff the round ended at or
after that bound (or has no recorded end time). -/
theorem fairness_crashed_and_seed_rule (db : Db) (now : Int) (lim : Nat) (v : FairRoundView)
    (hv : v ∈ getRecentRoundsForFairness db now lim) :
    ∃ r, r ∈ db.rounds ∧ r.status = .CRASHED ∧ v = fairRoundView now r ∧
      (v.serverSeed = none ↔ ¬ ∃ e, r.endTime = some e ∧ e < now - seedRevealGraceMs) := by
  unfold getRecentRoundsForFairness at hv
  rcases List.mem_map.mp hv with ⟨r, hr, hvr⟩
  have hr2 := List.take_subset lim _ hr
  have hr3 := mem_sortByCreatedAtDesc.mp hr2
  rcases List.mem_filter.mp hr3 with ⟨hmem, hst⟩
  refine ⟨r, hmem, by simpa using hst, hvr.symm, ?_⟩
  subst hvr
  cases he : r.endTime with
  | none => simp [fairRoundView, he]
  | some e0 =>
    by_cases hlt : e0 < now - seedRevealGraceMs
    · simp [fairRoundView, he, hlt]
    · simp [fairRoundView, he, hlt]


/-! ### Closed instances: counterexamples and witnesses -/

/-- Claim C1 (code bug): two identical bet requests from the same
authenticated user in the same BETTING phase both succeed — the second is
acknowledged with a betPlaced frame (not rejected with AlreadyExists),
the balance is debited twice (1000 to 980), and two ACTIVE wager rows for
the same (user, round) pair exist afterwards.  Neither `handleBet` nor
`placeBet` checks for an existing wager. -/
theorem duplicate_bet_accepted_twice :
    ((handleBet (handleBet gsC1 1 10).1 1 10).2 = [Frame.betPlaced 10 980])
    ∧ (((handleBet (handleBet gsC1 1 10).1 1 10).1.db.bets.filter
          (fun b => b.userId == 1 && b.gameRoundId == 1)).length = 2)
    ∧ ((findUser (handleBet (handleBet gsC1 1 10).1 1 10).1.db 1).map User.balance
        = some 980) := by
  norm_num [handleBet, gsC1, dbC1, userC1, roundC1, lookupEntry, setEntry, placeBet, findUser,
    findDailyLimit, checkDailyLimits, updateDailyLimits, List.find?, List.filter]

/-- Claim C2 counterexample: a live wager with autoCashout threshold 1.5
strictly below the crash point 2 settles LOST when the engine runs the
round to its crash with no client cashOut message, even though a tick
with multiplier at least 1.5 occurred before the crash — refuting the
claim that such a wager never settles as LOST. -/
theorem auto_cashout_below_crash_settles_lost :
    betC2.cashoutAt = some (3 / 2) ∧ ((3 / 2 : ℚ) < gsC2.crashPoint)
    ∧ ((3 / 2 : ℚ) ≤ 1 + (1550 : ℚ) / 3000)
    ∧ (findBet (runEngine gsC2 ticksC2).db 1).map Bet.status = some BetStatus.LOST := by
  refine ⟨rfl, by norm_num [gsC2], by norm_num, ?_⟩
  norm_num [runEngine, ticksC2, engineTick, gsC2, dbC2, betC2, roundC2, crashBets, settleLostBet,
    updateGameRoundStatus, updateDailyLimits, findBet, findUser, findDailyLimit, setBet, setUser,
    List.find?, List.filter, List.foldl]

/-- Claim C2 witness: the amended engine and client facts at the concrete
C2 round. -/
theorem engine_no_auto_cashout_witness :
    noCashedOut gsC2.db
    ∧ noCashedOut (runEngine gsC2 ticksC2).db
    ∧ (autoCashoutTriggered true .running 50 0 (8 / 5) (3 / 2) = true
        ↔ (true = true ∧ (0 : ℚ) < 50 ∧ (0 : ℚ) = 0 ∧ (3 / 2 : ℚ) ≤ 8 / 5)) :=
  ⟨by unfold noCashedOut; decide, engine_has_no_auto_cashout.1 gsC2 ticksC2 (by unfold noCashedOut; decide),
   engine_has_no_auto_cashout.2 true 50 0 (8 / 5) (3 / 2)⟩

/-- Claim C3 counterexample: cashing out a 100 bet at multiplier 1.5 when
the user's balance is 950 yields balance 1100, not the claimed 1050 — the
claim's literal figures (balance 1050 from 950) are inconsistent with
`payout = stake * multiplier` credited on top of 950. -/
theorem cashout_from_950_yields_1100 :
    (cashoutBet dbC3x 1 (3 / 2)).map (fun p => (findUser p.1 1).map User.balance)
      = Except.ok (some 1100)
    ∧ ((1100 : ℚ) ≠ 1050) := by
  constructor
  · norm_num [cashoutBet, dbC3x, betC3, findBet, findUser, setUser, setBet, wonUser,
      expGainedOnCashout, List.find?, Except.map]
  · norm_num

/-- Claim C3 witness: a 100 bet cashed out at multiplier 1.5 from balance
900 yields payout 150 and balance 1050. -/
theorem cashoutBet_spec_witness :
    (findBet dbC3 1 = some betC3 ∧ betC3.status = BetStatus.ACTIVE
      ∧ findUser dbC3 betC3.userId = some userC3)
    ∧ (∃ db1, cashoutBet dbC3 1 (3 / 2) = Except.ok (db1, cashedOutRow betC3 (3 / 2))
        ∧ (findUser db1 betC3.userId).map User.balance
            = some (userC3.balance + betC3.amount * (3 / 2))
        ∧ db1.ledger = dbC3.ledger ++ [betWonEntry betC3 userC3 (3 / 2)])
    ∧ (betC3.amount * (3 / 2) = 150 ∧ userC3.balance + betC3.amount * (3 / 2) = 1050) :=
  ⟨⟨rfl, rfl, rfl⟩, cashoutBet_spec dbC3 1 (3 / 2) betC3 userC3 rfl rfl rfl,
   by norm_num [betC3, userC3]⟩

/-- Claim C4 counterexample: `claimFarmingPoints` performs its
balance-writing user update as a bare statement outside any transaction,
so the claim that every balance change and its ledger row share one
transaction fails on the farming claim. -/
theorem farming_claim_not_atomic :
    balanceLedgerAtomic claimFarmingPointsScript = false := by decide

/-- Claim C4 (amended): bet placement, cashout, balance adjustment and
crash settlement each write the user-row update and the ledger row inside
one `prisma.$transaction`, but the farming claim writes the balance
update and its ledger row as separate non-transactional statements. -/
theorem balance_ledger_atomicity_by_operation :
    balanceLedgerAtomic updateBalanceScript = true
    ∧ balanceLedgerAtomic placeBetScript = true
    ∧ balanceLedgerAtomic cashoutBetScript = true
    ∧ balanceLedgerAtomic crashBetsScript = true
    ∧ balanceLedgerAtomic claimFarmingPointsScript = false := by decide

/-- Claim C5 counterexample: with balance 50, a bet of 100 is dropped
silently — the handler returns the state unchanged and sends no frame at
all, so the client receives no InsufficientFunds error. -/
theorem insufficient_bet_dropped_silently :
    handleBet gsC5 1 100 = (gsC5, []) := by decide

/-- Claim C5 witness: the amended facts at balance 50 and bet 100, plus a
concrete farming step preserving the money invariant. -/
theorem insufficient_funds_witness :
    (lookupEntry gsC5.players 1 = some playerC5 ∧ findUser dbC5 1 = some userC5
      ∧ userC5.balance < 100 ∧ moneyInv dbC5)
    ∧ handleBet gsC5 1 100 = (gsC5, [])
    ∧ placeBet dbC5 1 1 100 none = Except.error DbErr.insufficientBalance
    ∧ moneyInv (claimFarmingPoints dbC5 1 0).1 := by
  refine ⟨⟨rfl, rfl, by norm_num [userC5], by unfold moneyInv balancesNonneg stakesNonneg; decide⟩, ?_, ?_, ?_⟩
  · exact insufficient_funds_and_nonneg.1 gsC5 1 100 playerC5 rfl (by norm_num [playerC5])
  · exact insufficient_funds_and_nonneg.2.1 dbC5 1 1 100 none userC5 rfl (by norm_num [userC5])
  · exact insufficient_funds_and_nonneg.2.2 dbC5 _
      (by unfold moneyInv balancesNonneg stakesNonneg; decide) (DbStep.farm 1 0)

/-- Claim C6 counterexample: after Logout removes user 1's session, a
Refresh presenting the same (still valid) refresh token succeeds with a
fresh access token instead of yielding Unauthenticated —
`refreshAccessToken` never consults the session map. -/
theorem refresh_after_logout_succeeds :
    (refreshAccessToken authUsersC6 (logout authStateC6 1) refreshTokenC6 5).2
      = Except.ok (Token.signed { userId := 1, isRefresh := false, iat := 5 }) := by decide

/-- Claim C6 witness: the amended refresh and logout facts at user 1. -/
theorem refresh_stateless_logout_witness :
    (findAuthUser authUsersC6 authUserC6.id = some authUserC6 ∧ authUserC6.isActive = true)
    ∧ ((refreshAccessToken authUsersC6 authStateC6 (generateRefreshToken authUserC6 0) 7).2
        = Except.ok (Token.signed { userId := authUserC6.id, isRefresh := false, iat := 7 }))
    ∧ ((refreshAccessToken authUsersC6 (logout authStateC6 authUserC6.id)
          (generateRefreshToken authUserC6 0) 7).2
        = Except.ok (Token.signed { userId := authUserC6.id, isRefresh := false, iat := 7 }))
    ∧ ((verifyToken (logout authStateC6 2)
          (Token.signed { userId := 2, isRefresh := false, iat := 0 }) 7).2
        = Except.error AuthErr.sessionExpiredOrInvalid) := by
  have h := refresh_stateless_logout authUsersC6 authStateC6 authUserC6 0 7 0 2 rfl rfl
  exact ⟨⟨rfl, rfl⟩, h.1, h.2.1, h.2.2⟩

/-- Claim C7 counterexample: a second CashOut for an already-cashed-out
wager leaves the state unchanged but sends no frame at all — in
particular no AlreadyExists error is returned. -/
theorem duplicate_cashout_no_error_frame :
    abetC7.cashedOut = true ∧ handleCashOut gsC7 1 = (gsC7, []) :=
  ⟨rfl, by norm_num [handleCashOut, handleCashOutWith, gsC7, abetC7, playerC7,
    lookupEntry, List.find?]⟩

/-- Claim C7 witness: the amended silent-ignore fact at the concrete
already-cashed-out wager. -/
theorem duplicate_cashout_witness :
    (lookupEntry gsC7.players 1 = some playerC7 ∧ lookupEntry gsC7.activeBets 1 = some abetC7
      ∧ abetC7.cashedOut = true)
    ∧ handleCashOutWith gsC7 1 failingPersist = (gsC7, []) :=
  ⟨⟨rfl, rfl, rfl⟩,
   duplicate_cashout_silently_ignored gsC7 1 playerC7 abetC7 failingPersist rfl rfl rfl⟩

/-- Claim C8 witness: at crash point 2.45, the tick at 1500 ms broadcasts
multiplier 1.5 and keeps the round running. -/
theorem running_tick_multiplier_witness :
    (gsC8.phase = Phase.running ∧ ((1 : ℚ) + (1500 : ℚ) / 3000 < gsC8.crashPoint))
    ∧ engineTick gsC8 1500 = { gsC8 with multiplier := 1 + (1500 : ℚ) / 3000 } :=
  ⟨⟨rfl, by norm_num [gsC8]⟩,
   (running_tick_multiplier_spec gsC8 1500 [] rfl).1 (by norm_num [gsC8])⟩

theorem fairness_output_fixture :
    getRecentRoundsForFairness dbC9 nowC9 50 = [fairRoundView nowC9 roundC9] := by
  norm_num [getRecentRoundsForFairness, dbC9, roundC9, sortByCreatedAtDesc,
    insertByCreatedAtDesc, List.filter]

/-- Claim C9 counterexample: a round that ended exactly the grace period
before the query time has its seed hidden (`serverSeed = none`), while
the claim's rule — null iff ended less than the grace period ago — says
it should be revealed; the code hides the seed unless the end time is
strictly older than the bound. -/
theorem seed_hidden_at_exact_grace_boundary :
    ¬ (∀ v ∈ getRecentRoundsForFairness dbC9 nowC9 50, specSeedNullIffRecent nowC9 v) := by
  intro hcl
  have h1 := hcl (fairRoundView nowC9 roundC9)
    (by rw [fairness_output_fixture]; exact List.mem_singleton.mpr rfl)
  have h2 := h1 700000 rfl
  have hseed : (fairRoundView nowC9 roundC9).serverSeed = none := by
    norm_num [fairRoundView, roundC9, nowC9, seedRevealGraceMs]
  have hlt : ¬ ((nowC9 : Int) - 700000 < seedRevealGraceMs) := by
    norm_num [nowC9, seedRevealGraceMs]
  exact hlt (h2.mp hseed)

/-- Claim C9 witness: the amended seed rule applied to the concrete
boundary round. -/
theorem fairness_seed_rule_witness :
    (fairRoundView nowC9 roundC9 ∈ getRecentRoundsForFairness dbC9 nowC9 50)
    ∧ ∃ r, r ∈ dbC9.rounds ∧ r.status = RoundStatus.CRASHED
        ∧ fairRoundView nowC9 roundC9 = fairRoundView nowC9 r
        ∧ ((fairRoundView nowC9 roundC9).serverSeed = none
            ↔ ¬ ∃ e, r.endTime = some e ∧ e < nowC9 - seedRevealGraceMs) := by
  have hmem : fairRoundView nowC9 roundC9 ∈ getRecentRoundsForFairness dbC9 nowC9 50 := by
    rw [fairness_output_fixture]
    exact List.mem_singleton.mpr rfl
  exact ⟨hmem, fairness_crashed_and_seed_rule dbC9 nowC9 50 _ hmem⟩

/-- Claim C10 witness: the revert at the concrete live wager when the
persistence call fails. -/
theorem cashout_persist_failure_witness :
    (lookupEntry gsC10.players 1 = some playerC10 ∧ lookupEntry gsC10.activeBets 1 = some abetC10
      ∧ abetC10.cashedOut = false ∧ gsC10.phase = Phase.running ∧ playerC10.isGuest = false
      ∧ abetC10.betId = some 1
      ∧ failingPersist gsC10.db 1 gsC10.multiplier = Except.error DbErr.invalidBet)
    ∧ handleCashOutWith gsC10 1 failingPersist
        = ({ gsC10 with activeBets := setEntry gsC10.activeBets 1 (revertBet abetC10) },
           [Frame.errorFrame (dbErrMessage DbErr.invalidBet)]) :=
  ⟨⟨rfl, rfl, rfl, rfl, rfl, rfl, rfl⟩,
   cashout_persist_failure_reverts gsC10 1 1 playerC10 abetC10 DbErr.invalidBet failingPersist
     rfl rfl rfl rfl rfl rfl rfl⟩


end Aviator
